import Mathlib

/-!
Verification development for the bb-storage front end (`cmd/bb_storage/main.go`).

The development shallowly embeds the startup wiring of `main.go`: parsing of
the repeated `-scheduler` and `-allow-ac-updates-for-instance` flags, the
two-pass construction of the instance routing table, the demultiplexing
lookup closure, and the registration of the protocol servers over the two
BlobAccess handles.  Behaviour of packages whose sources are not part of this
snapshot (`pkg/builder`, `pkg/ac`, `pkg/cas`) is modelled from the spec and
marked as such in the doc comments.
-/

namespace BBStorage

/-- gRPC status codes used by this program (from `google.golang.org/grpc/codes`). -/
inductive StatusCode where
  | ok
  | notFound
  | invalidArgument
  | permissionDenied
  | unimplemented
  deriving DecidableEq, Repr

/-- A gRPC status error as produced by `status.Errorf(code, message)`. -/
structure GrpcError where
  code : StatusCode
  message : String
  deriving DecidableEq, Repr

/-- A BlobAccess handle.  `CreateBlobAccessObjectsFromConfig` is opaque to this
snapshot; a handle is identified abstractly so that distinct handles can be
told apart. -/
structure BlobAccess where
  id : Nat
  deriving DecidableEq, Repr

/-- A BuildQueue value as stored in the `schedulers` map of `main.go`:
either the shared `NonExecutableBuildQueue` fallback, or a
`ForwardingBuildQueue` wrapping a gRPC connection to the given endpoint. -/
inductive BuildQueue where
  | nonExecutable
  | forwarding (endpoint : String)
  deriving DecidableEq, Repr

/-- Go maps with string keys, embedded as partial functions. -/
def StringMap (α : Type) : Type := String → Option α

/-- The empty Go map (`map[string]T{}`). -/
def StringMap.empty {α : Type} : StringMap α := fun _ => none

/-- Go map assignment `m[k] = v`: later assignments overwrite earlier ones. -/
def StringMap.insert {α : Type} (m : StringMap α) (k : String) (v : α) : StringMap α :=
  fun x => if x = k then some v else m x

/-- Splitting a character list at the first occurrence of the pipe character,
returning the parts before and after it, or `none` when it does not occur.
This is the semantics of `strings.SplitN(s, "|", 2)` in Go. -/
def splitFirstPipe : List Char → Option (List Char × List Char)
  | [] => none
  | c :: rest =>
      if c = '|' then some ([], rest)
      else
        match splitFirstPipe rest with
        | none => none
        | some (a, b) => some (c :: a, b)

/-- `strings.SplitN(s, "|", 2)` from `main.go`: one component when `s` has no
pipe, otherwise the text before the first pipe and everything after it. -/
def splitN2 (s : String) : List String :=
  match splitFirstPipe s.data with
  | none => [s]
  | some (a, b) => [String.mk a, String.mk b]

/-- The instance-name and endpoint components of a scheduler flag entry, or
`none` when the entry is malformed (`len(components) != 2` in `main.go`). -/
def entryComponents (entry : String) : Option (String × String) :=
  match splitN2 entry with
  | [a, b] => some (a, b)
  | _ => none

/-- First pass of the routing-table construction in `main.go`: every instance
in the allow-action-cache-updates list is mapped to the one shared
`NonExecutableBuildQueue` fallback, and marked `true` in the allow table. -/
def allowPass : List String → StringMap BuildQueue → StringMap Bool →
    StringMap BuildQueue × StringMap Bool
  | [], schedulers, allow => (schedulers, allow)
  | instanceName :: rest, schedulers, allow =>
      allowPass rest (schedulers.insert instanceName BuildQueue.nonExecutable)
        (allow.insert instanceName true)

/-- State threaded through the scheduler loop of `main.go`: the routing table
under construction and the list of endpoints for which a gRPC client
connection has been dialed, in order. -/
structure SchedLoopState where
  schedulers : StringMap BuildQueue
  dialed : List String

/-- One iteration of the scheduler loop in `main.go`: split the entry on the
first pipe; a malformed entry is fatal (`log.Fatal("Invalid scheduler entry: ...")`),
otherwise a connection is dialed to the endpoint and the instance is mapped
to a `ForwardingBuildQueue` over it. -/
def processSchedulerEntry (st : SchedLoopState) (entry : String) :
    Except String SchedLoopState :=
  match splitN2 entry with
  | [instanceName, endpoint] =>
      Except.ok
        { schedulers := st.schedulers.insert instanceName (BuildQueue.forwarding endpoint)
          dialed := st.dialed ++ [endpoint] }
  | _ => Except.error ("Invalid scheduler entry: " ++ entry)

/-- The scheduler loop of `main.go`, over the entries of the repeated
`-scheduler` flag in order; the first malformed entry aborts startup. -/
def runSchedulerLoop (st : SchedLoopState) : List String → Except String SchedLoopState
  | [] => Except.ok st
  | entry :: rest =>
      match processSchedulerEntry st entry with
      | Except.ok st1 => runSchedulerLoop st1 rest
      | Except.error msg => Except.error msg

/-- The wiring state of the process after `main` has constructed the tables
and registered the protocol servers, just before `Serve`. -/
structure ServerSetup where
  schedulers : StringMap BuildQueue
  allowActionCacheUpdatesForInstances : StringMap Bool
  dialed : List String
  actionCacheServerBlobAccess : BlobAccess
  casServerBlobAccess : BlobAccess
  byteStreamServerBlobAccess : BlobAccess
  byteStreamMaxChunkSize : Nat

/-- The startup sequence of `main.go` relevant to storage and routing:
resolve the blobstore configuration into the two BlobAccess handles (fatal on
error), run the allow-list pass, run the scheduler loop (fatal on a malformed
entry), then register the protocol servers: the ActionCache server over the
action-cache handle and allow table, the ContentAddressableStorage and
ByteStream servers over the CAS handle, the latter with maximum chunk size
`1 << 16`. -/
def startup (resolveBlobAccess : Except String (BlobAccess × BlobAccess))
    (allowList schedulersList : List String) : Except String ServerSetup :=
  match resolveBlobAccess with
  | Except.error e => Except.error ("Failed to create blob access: " ++ e)
  | Except.ok (casBlobAccess, acBlobAccess) =>
      let pass1 := allowPass allowList StringMap.empty StringMap.empty
      match runSchedulerLoop { schedulers := pass1.1, dialed := [] } schedulersList with
      | Except.error e => Except.error e
      | Except.ok st =>
          Except.ok
            { schedulers := st.schedulers
              allowActionCacheUpdatesForInstances := pass1.2
              dialed := st.dialed
              actionCacheServerBlobAccess := acBlobAccess
              casServerBlobAccess := casBlobAccess
              byteStreamServerBlobAccess := casBlobAccess
              byteStreamMaxChunkSize := 1 <<< 16 }

/-- The lookup closure passed to `NewDemultiplexingBuildQueue` in `main.go`:
a map hit returns the queue, a miss returns
`status.Errorf(codes.InvalidArgument, "Unknown instance name")`. -/
def demultiplexLookup (schedulers : StringMap BuildQueue) (instanceName : String) :
    Except GrpcError BuildQueue :=
  match schedulers instanceName with
  | some queue => Except.ok queue
  | none => Except.error ⟨StatusCode.invalidArgument, "Unknown instance name"⟩

/-- Capabilities advertised by a build queue in response to `GetCapabilities`:
whether cache access and whether execution are available. -/
structure ServerCapabilities where
  cacheCapabilities : Bool
  executionEnabled : Bool
  deriving DecidableEq, Repr

/-- Modelled from the spec: `NonExecutableBuildQueue.Execute` and
`ForwardingBuildQueue.Execute` (`pkg/builder`, not in this snapshot).  The
non-executable queue always fails with a "not implemented" condition; the
forwarding queue re-issues the call to the remote scheduler at its endpoint,
whose behaviour is the parameter `remote`. -/
def buildQueueExecute (remote : String → String → Except GrpcError String) :
    BuildQueue → String → Except GrpcError String
  | BuildQueue.nonExecutable, _ =>
      Except.error ⟨StatusCode.unimplemented, "Cannot execute build actions"⟩
  | BuildQueue.forwarding endpoint, request => remote endpoint request

/-- Modelled from the spec: `NonExecutableBuildQueue.GetCapabilities` and
`ForwardingBuildQueue.GetCapabilities` (`pkg/builder`, not in this snapshot).
The non-executable queue advertises cache capability with execution disabled;
the forwarding queue relays the remote scheduler's answer. -/
def buildQueueGetCapabilities (remoteCaps : String → Except GrpcError ServerCapabilities) :
    BuildQueue → Except GrpcError ServerCapabilities
  | BuildQueue.nonExecutable => Except.ok ⟨true, false⟩
  | BuildQueue.forwarding endpoint => remoteCaps endpoint

/-- The outcome of an `Execute` call through the demultiplexing queue: the
gRPC result, and which backend queue (if any) the call was delegated to. -/
structure ExecuteOutcome where
  result : Except GrpcError String
  reachedBackend : Option BuildQueue
  deriving Repr

/-- Modelled from the spec: `DemultiplexingBuildQueue.Execute` (`pkg/builder`,
not in this snapshot) resolves the backend queue for the call's instance name
through the lookup function and delegates; when the lookup fails the call
fails immediately with that error and no backend is reached. -/
def demultiplexExecute (remote : String → String → Except GrpcError String)
    (schedulers : StringMap BuildQueue) (instanceName request : String) : ExecuteOutcome :=
  match demultiplexLookup schedulers instanceName with
  | Except.error e => { result := Except.error e, reachedBackend := none }
  | Except.ok queue =>
      { result := buildQueueExecute remote queue request, reachedBackend := some queue }

/-- Modelled from the spec: `DemultiplexingBuildQueue.GetCapabilities`
(`pkg/builder`, not in this snapshot) resolves the backend queue through the
lookup function and delegates the capabilities query to it. -/
def demultiplexGetCapabilities (remoteCaps : String → Except GrpcError ServerCapabilities)
    (schedulers : StringMap BuildQueue) (instanceName : String) :
    Except GrpcError ServerCapabilities :=
  match demultiplexLookup schedulers instanceName with
  | Except.error e => Except.error e
  | Except.ok queue => buildQueueGetCapabilities remoteCaps queue

/-- A digest: content hash plus declared size, scoped per instance at use
sites. -/
structure Digest where
  hash : String
  sizeBytes : Nat
  deriving DecidableEq, Repr

/-- The contents of the action-cache storage namespace, keyed by instance
name and action digest. -/
def ACStore : Type := String × Digest → Option String

/-- The empty action-cache store. -/
def ACStore.empty : ACStore := fun _ => none

/-- Storing an action result under an instance-scoped digest. -/
def ACStore.put (s : ACStore) (k : String × Digest) (v : String) : ACStore :=
  fun x => if x = k then some v else s x

/-- Modelled from the spec: `ActionCacheServer.UpdateActionResult` (`pkg/ac`,
not in this snapshot).  The update is permitted only when the call's instance
name is allow-listed (a Go bool-map lookup, defaulting to `false`); otherwise
it fails with `PERMISSION_DENIED` and no `Put` is issued to storage. -/
def updateActionResult (allow : StringMap Bool) (store : ACStore)
    (instanceName : String) (actionDigest : Digest) (result : String) :
    Except GrpcError Unit × ACStore :=
  if (allow instanceName).getD false then
    (Except.ok (), store.put (instanceName, actionDigest) result)
  else
    (Except.error ⟨StatusCode.permissionDenied, "This instance may not update the action cache"⟩,
      store)

/-- Modelled from the spec: `ActionCacheServer.GetActionResult` (`pkg/ac`,
not in this snapshot): pure delegation to the action-cache BlobAccess `Get`,
with a miss surfaced as `NOT_FOUND`. -/
def getActionResult (store : ACStore) (instanceName : String) (actionDigest : Digest) :
    Except GrpcError String :=
  match store (instanceName, actionDigest) with
  | some r => Except.ok r
  | none => Except.error ⟨StatusCode.notFound, "Action result not found"⟩

/-- Modelled from the spec: the ByteStream server's download chunking
(`pkg/cas`, not in this snapshot): blob content is emitted as successive
chunks of at most `chunkSize` bytes rather than one message. -/
def chunkBlob (chunkSize : Nat) : List Nat → List (List Nat)
  | [] => []
  | b :: rest =>
      (b :: rest.take (chunkSize - 1)) :: chunkBlob chunkSize (rest.drop (chunkSize - 1))
  termination_by data => data.length
  decreasing_by simp [List.length_drop]; omega

/-- Modelled from the spec: each protocol server holds the single BlobAccess
handle it was constructed with; the handle a ByteStream call operates on does
not depend on the request's instance name. -/
def byteStreamBlobAccessFor (setup : ServerSetup) (_instanceName : String) : BlobAccess :=
  setup.byteStreamServerBlobAccess

/-- Modelled from the spec: the BlobAccess handle a ContentAddressableStorage
call operates on does not depend on the request's instance name. -/
def casBlobAccessFor (setup : ServerSetup) (_instanceName : String) : BlobAccess :=
  setup.casServerBlobAccess

/-- Modelled from the spec: the BlobAccess handle an ActionCache call
operates on does not depend on the request's instance name. -/
def actionCacheBlobAccessFor (setup : ServerSetup) (_instanceName : String) : BlobAccess :=
  setup.actionCacheServerBlobAccess

/-- A request arriving at the RPC server after startup. -/
inductive Request where
  | getActionResult (instanceName : String) (actionDigest : Digest)
  | updateActionResult (instanceName : String) (actionDigest : Digest) (result : String)
  | execute (instanceName : String) (request : String)
  | getCapabilities (instanceName : String)

/-- A response leaving the RPC server. -/
inductive Response where
  | actionResult (r : String)
  | updated
  | executed (r : String)
  | capabilities (c : ServerCapabilities)

/-- The serve-time state of the process: the wiring produced at startup plus
the mutable contents of the action-cache storage namespace. -/
structure ServerState where
  setup : ServerSetup
  acStore : ACStore

/-- Handling one request at serve time.  The routing table and the allow
table are only read — the handlers mutate at most the storage contents. -/
def handleRequest (remote : String → String → Except GrpcError String)
    (remoteCaps : String → Except GrpcError ServerCapabilities)
    (st : ServerState) : Request → ServerState × Except GrpcError Response
  | Request.getActionResult instanceName actionDigest =>
      (st, (getActionResult st.acStore instanceName actionDigest).map Response.actionResult)
  | Request.updateActionResult instanceName actionDigest result =>
      let out := updateActionResult st.setup.allowActionCacheUpdatesForInstances st.acStore
        instanceName actionDigest result
      ({ st with acStore := out.2 }, out.1.map fun _ => Response.updated)
  | Request.execute instanceName request =>
      (st, (demultiplexExecute remote st.setup.schedulers instanceName request).result.map
        Response.executed)
  | Request.getCapabilities instanceName =>
      (st, (demultiplexGetCapabilities remoteCaps st.setup.schedulers instanceName).map
        Response.capabilities)

/-- Serving a sequence of requests in order, threading the server state. -/
def serveRequests (remote : String → String → Except GrpcError String)
    (remoteCaps : String → Except GrpcError ServerCapabilities)
    (st : ServerState) : List Request → ServerState
  | [] => st
  | r :: rest => serveRequests remote remoteCaps (handleRequest remote remoteCaps st r).1 rest

/-! ### Characterisation helpers -/

/-- The endpoint of the last scheduler entry naming the given instance, in
flag order, if any: later entries shadow earlier ones. -/
def lastEndpointFor : List String → String → Option String
  | [], _ => none
  | e :: rest, instanceName =>
      match lastEndpointFor rest instanceName with
      | some ep => some ep
      | none =>
          match entryComponents e with
          | some (a, b) => if a = instanceName then some b else none
          | none => none

/-- The endpoints of the well-formed scheduler entries, in flag order. -/
def entryEndpoints (entries : List String) : List String :=
  entries.filterMap fun e => (entryComponents e).map Prod.snd

theorem StringMap.insert_apply {α : Type} (m : StringMap α) (k : String) (v : α) (x : String) :
    (m.insert k v) x = if x = k then some v else m x := rfl

theorem splitFirstPipe_eq_none_iff (l : List Char) : splitFirstPipe l = none ↔ '|' ∉ l := by
  induction l with
  | nil => simp [splitFirstPipe]
  | cons c rest ih =>
      by_cases hc : c = '|'
      · subst hc
        simp [splitFirstPipe]
      · simp only [splitFirstPipe, if_neg hc]
        cases h : splitFirstPipe rest with
        | none =>
            constructor
            · intro _
              rw [List.mem_cons, not_or]
              exact ⟨fun he => hc he.symm, ih.mp h⟩
            · intro _
              rfl
        | some p =>
            obtain ⟨a, b⟩ := p
            constructor
            · intro hcontra
              simp at hcontra
            · intro hmem
              exfalso
              rw [List.mem_cons, not_or] at hmem
              rw [ih.mpr hmem.2] at h
              cases h

theorem splitFirstPipe_eq_some (l : List Char) :
    ∀ a b, splitFirstPipe l = some (a, b) → l = a ++ '|' :: b ∧ '|' ∉ a := by
  induction l with
  | nil => intro a b h; simp [splitFirstPipe] at h
  | cons c rest ih =>
      intro a b h
      by_cases hc : c = '|'
      · subst hc
        rw [splitFirstPipe, if_pos rfl] at h
        injection h with h
        injection h with h1 h2
        subst h1; subst h2
        simp
      · simp only [splitFirstPipe, if_neg hc] at h
        cases h2 : splitFirstPipe rest with
        | none => rw [h2] at h; cases h
        | some p =>
            obtain ⟨a1, b1⟩ := p
            rw [h2] at h
            injection h with h
            injection h with hA hB
            subst hA; subst hB
            obtain ⟨hrest, hnot⟩ := ih a1 b1 h2
            constructor
            · simp [hrest]
            · rw [List.mem_cons, not_or]
              exact ⟨fun he => hc he.symm, hnot⟩

theorem entryComponents_eq_some_iff (e a b : String) :
    entryComponents e = some (a, b) ↔ splitN2 e = [a, b] := by
  unfold entryComponents
  cases h : splitN2 e with
  | nil => simp
  | cons x xs =>
      cases xs with
      | nil => simp
      | cons y ys =>
          cases ys with
          | nil => simp
          | cons z zs => simp

theorem splitN2_length (e : String) : splitN2 e = [e] ∨ ∃ a b, splitN2 e = [a, b] := by
  unfold splitN2
  cases h : splitFirstPipe e.data with
  | none => left; rfl
  | some p =>
      obtain ⟨a, b⟩ := p
      right
      exact ⟨String.mk a, String.mk b, rfl⟩

theorem entryComponents_eq_none_iff (e : String) :
    entryComponents e = none ↔ '|' ∉ e.data := by
  unfold entryComponents splitN2
  cases h : splitFirstPipe e.data with
  | none =>
      simp only [splitFirstPipe_eq_none_iff] at h
      simp [h]
  | some p =>
      obtain ⟨a, b⟩ := p
      have := splitFirstPipe_eq_some e.data a b h
      simp [this.1]

theorem splitN2_eq_pair (e a b : String) (h : splitN2 e = [a, b]) :
    e.data = a.data ++ '|' :: b.data ∧ '|' ∉ a.data := by
  unfold splitN2 at h
  cases h2 : splitFirstPipe e.data with
  | none => rw [h2] at h; simp at h
  | some p =>
      obtain ⟨x, y⟩ := p
      rw [h2] at h
      injection h with hx h
      injection h with hy h
      obtain ⟨hsplit, hnot⟩ := splitFirstPipe_eq_some e.data x y h2
      subst hx; subst hy
      exact ⟨hsplit, hnot⟩

theorem allowPass_fst (l : List String) :
    ∀ (s : StringMap BuildQueue) (a : StringMap Bool) (instanceName : String),
      (allowPass l s a).1 instanceName =
        if instanceName ∈ l then some BuildQueue.nonExecutable else s instanceName := by
  induction l with
  | nil => intro s a instanceName; simp [allowPass]
  | cons i0 rest ih =>
      intro s a instanceName
      rw [allowPass, ih]
      by_cases h : instanceName ∈ rest
      · simp [h]
      · by_cases h2 : instanceName = i0
        · simp [h, h2, StringMap.insert]
        · simp [h, h2, StringMap.insert]

theorem allowPass_snd (l : List String) :
    ∀ (s : StringMap BuildQueue) (a : StringMap Bool) (instanceName : String),
      (allowPass l s a).2 instanceName =
        if instanceName ∈ l then some true else a instanceName := by
  induction l with
  | nil => intro s a instanceName; simp [allowPass]
  | cons i0 rest ih =>
      intro s a instanceName
      rw [allowPass, ih]
      by_cases h : instanceName ∈ rest
      · simp [h]
      · by_cases h2 : instanceName = i0
        · simp [h, h2, StringMap.insert]
        · simp [h, h2, StringMap.insert]

theorem processSchedulerEntry_ok (st : SchedLoopState) (e a b : String)
    (h : entryComponents e = some (a, b)) :
    processSchedulerEntry st e = Except.ok
      { schedulers := st.schedulers.insert a (BuildQueue.forwarding b)
        dialed := st.dialed ++ [b] } := by
  rw [processSchedulerEntry, (entryComponents_eq_some_iff e a b).mp h]

theorem processSchedulerEntry_error (st : SchedLoopState) (e : String)
    (h : entryComponents e = none) :
    processSchedulerEntry st e = Except.error ("Invalid scheduler entry: " ++ e) := by
  rw [processSchedulerEntry]
  rcases splitN2_length e with h1 | ⟨a, b, h2⟩
  · rw [h1]
  · rw [(entryComponents_eq_some_iff e a b).mpr h2] at h
    cases h

theorem processSchedulerEntry_ok_inv (st st1 : SchedLoopState) (e : String)
    (h : processSchedulerEntry st e = Except.ok st1) :
    ∃ a b, entryComponents e = some (a, b) ∧
      st1 = { schedulers := st.schedulers.insert a (BuildQueue.forwarding b)
              dialed := st.dialed ++ [b] } := by
  rcases splitN2_length e with h1 | ⟨a, b, h2⟩
  · rw [processSchedulerEntry, h1] at h
    cases h
  · refine ⟨a, b, (entryComponents_eq_some_iff e a b).mpr h2, ?_⟩
    rw [processSchedulerEntry, h2] at h
    injection h with h
    exact h.symm

theorem runSchedulerLoop_ok_lookup (entries : List String) :
    ∀ st st2, runSchedulerLoop st entries = Except.ok st2 →
      ∀ instanceName,
        st2.schedulers instanceName =
          match lastEndpointFor entries instanceName with
          | some ep => some (BuildQueue.forwarding ep)
          | none => st.schedulers instanceName := by
  induction entries with
  | nil =>
      intro st st2 h instanceName
      rw [runSchedulerLoop] at h
      injection h with h
      rw [← h, lastEndpointFor]
  | cons e rest ih =>
      intro st st2 h instanceName
      rw [runSchedulerLoop] at h
      cases hp : processSchedulerEntry st e with
      | error msg => rw [hp] at h; cases h
      | ok st1 =>
          rw [hp] at h
          obtain ⟨a, b, hc, hst1⟩ := processSchedulerEntry_ok_inv st st1 e hp
          have hrest := ih st1 st2 h instanceName
          rw [lastEndpointFor]
          cases hlast : lastEndpointFor rest instanceName with
          | some ep => rw [hlast] at hrest; exact hrest
          | none =>
              rw [hlast] at hrest
              rw [hrest, hst1]
              simp only [StringMap.insert, hc]
              by_cases hai : a = instanceName
              · subst hai
                simp
              · have hia : ¬instanceName = a := fun h2 => hai h2.symm
                simp [hai, hia]

theorem runSchedulerLoop_ok_dialed (entries : List String) :
    ∀ st st2, runSchedulerLoop st entries = Except.ok st2 →
      st2.dialed = st.dialed ++ entryEndpoints entries := by
  induction entries with
  | nil =>
      intro st st2 h
      rw [runSchedulerLoop] at h
      injection h with h
      rw [← h]
      simp [entryEndpoints]
  | cons e rest ih =>
      intro st st2 h
      rw [runSchedulerLoop] at h
      cases hp : processSchedulerEntry st e with
      | error msg => rw [hp] at h; cases h
      | ok st1 =>
          rw [hp] at h
          obtain ⟨a, b, hc, hst1⟩ := processSchedulerEntry_ok_inv st st1 e hp
          have hrest := ih st1 st2 h
          rw [hrest, hst1]
          simp [entryEndpoints, hc]

theorem runSchedulerLoop_ok_dialed_length (entries : List String) :
    ∀ st st2, runSchedulerLoop st entries = Except.ok st2 →
      st2.dialed.length = st.dialed.length + entries.length := by
  induction entries with
  | nil =>
      intro st st2 h
      rw [runSchedulerLoop] at h
      injection h with h
      rw [← h]
      simp
  | cons e rest ih =>
      intro st st2 h
      rw [runSchedulerLoop] at h
      cases hp : processSchedulerEntry st e with
      | error msg => rw [hp] at h; cases h
      | ok st1 =>
          rw [hp] at h
          obtain ⟨a, b, _, hst1⟩ := processSchedulerEntry_ok_inv st st1 e hp
          have hrest := ih st1 st2 h
          rw [hrest, hst1]
          simp
          omega

theorem runSchedulerLoop_error_of_invalid (entries : List String) :
    ∀ (st : SchedLoopState) (e : String), e ∈ entries → entryComponents e = none →
      ∃ bad, bad ∈ entries ∧ entryComponents bad = none ∧
        runSchedulerLoop st entries = Except.error ("Invalid scheduler entry: " ++ bad) := by
  induction entries with
  | nil => intro st e hmem; cases hmem
  | cons e0 rest ih =>
      intro st e hmem hnone
      by_cases h0 : entryComponents e0 = none
      · refine ⟨e0, List.mem_cons_self e0 rest, h0, ?_⟩
        rw [runSchedulerLoop, processSchedulerEntry_error st e0 h0]
      · have hric : e ∈ rest := by
          rcases List.mem_cons.mp hmem with h1 | h1
          · subst h1; exact absurd hnone h0
          · exact h1
        cases hc : entryComponents e0 with
        | none => exact absurd hc h0
        | some p =>
            obtain ⟨a, b⟩ := p
            have hok := processSchedulerEntry_ok st e0 a b hc
            obtain ⟨bad, hb1, hb2, hb3⟩ :=
              ih { schedulers := st.schedulers.insert a (BuildQueue.forwarding b)
                   dialed := st.dialed ++ [b] } e hric hnone
            refine ⟨bad, List.mem_cons_of_mem e0 hb1, hb2, ?_⟩
            rw [runSchedulerLoop, hok]
            exact hb3

theorem lastEndpointFor_eq_none_of (entries : List String) (instanceName : String)
    (h : ∀ e ∈ entries, ∀ a b, entryComponents e = some (a, b) → a ≠ instanceName) :
    lastEndpointFor entries instanceName = none := by
  induction entries with
  | nil => rw [lastEndpointFor]
  | cons e rest ih =>
      rw [lastEndpointFor, ih fun e2 hm => h e2 (List.mem_cons_of_mem e hm)]
      cases hc : entryComponents e with
      | none => rfl
      | some p =>
          obtain ⟨a, b⟩ := p
          have := h e (List.mem_cons_self e rest) a b hc
          simp [this]

theorem lastEndpointFor_isSome_of (entries : List String) (instanceName : String) :
    ∀ e a b, e ∈ entries → entryComponents e = some (a, b) → a = instanceName →
      ∃ ep, lastEndpointFor entries instanceName = some ep := by
  induction entries with
  | nil => intro e a b hmem; cases hmem
  | cons e0 rest ih =>
      intro e a b hmem hc ha
      rw [lastEndpointFor]
      cases hlast : lastEndpointFor rest instanceName with
      | some ep => exact ⟨ep, rfl⟩
      | none =>
          rcases List.mem_cons.mp hmem with h1 | h1
          · subst h1
            rw [hc]
            subst ha
            simp
          · obtain ⟨ep, hep⟩ := ih e a b h1 hc ha
            rw [hep] at hlast
            cases hlast

theorem startup_ok_inv (resolveBlobAccess : Except String (BlobAccess × BlobAccess))
    (allowList schedulersList : List String) (setup : ServerSetup)
    (hok : startup resolveBlobAccess allowList schedulersList = Except.ok setup) :
    ∃ casBA acBA st,
      resolveBlobAccess = Except.ok (casBA, acBA) ∧
      runSchedulerLoop
        { schedulers := (allowPass allowList StringMap.empty StringMap.empty).1
          dialed := [] } schedulersList = Except.ok st ∧
      setup = { schedulers := st.schedulers
                allowActionCacheUpdatesForInstances :=
                  (allowPass allowList StringMap.empty StringMap.empty).2
                dialed := st.dialed
                actionCacheServerBlobAccess := acBA
                casServerBlobAccess := casBA
                byteStreamServerBlobAccess := casBA
                byteStreamMaxChunkSize := 1 <<< 16 } := by
  cases hres : resolveBlobAccess with
  | error e =>
      rw [startup.eq_def, hres] at hok
      simp only [] at hok
      cases hok
  | ok p =>
      obtain ⟨casBA, acBA⟩ := p
      rw [startup.eq_def, hres] at hok
      simp only [] at hok
      cases hloop : runSchedulerLoop
          { schedulers := (allowPass allowList StringMap.empty StringMap.empty).1
            dialed := [] } schedulersList with
      | error e =>
          rw [hloop] at hok
          simp only [] at hok
          cases hok
      | ok st =>
          rw [hloop] at hok
          simp only [] at hok
          injection hok with hok
          exact ⟨casBA, acBA, st, rfl, rfl, hok.symm⟩

theorem chunkBlob_chunk_length_le (chunkSize : Nat) (hcs : 1 ≤ chunkSize) :
    ∀ (n : Nat) (data : List Nat), data.length ≤ n →
      ∀ chunk ∈ chunkBlob chunkSize data, chunk.length ≤ chunkSize := by
  intro n
  induction n with
  | zero =>
      intro data hlen chunk hmem
      have hnil : data = [] := List.eq_nil_of_length_eq_zero (Nat.le_zero.mp hlen)
      subst hnil
      simp [chunkBlob] at hmem
  | succ n ih =>
      intro data hlen chunk hmem
      cases data with
      | nil => simp [chunkBlob] at hmem
      | cons b rest =>
          rw [chunkBlob] at hmem
          rcases List.mem_cons.mp hmem with h1 | h2
          · subst h1
            simp only [List.length_cons, List.length_take]
            have := Nat.min_le_left (chunkSize - 1) rest.length
            omega
          · refine ih (rest.drop (chunkSize - 1)) ?_ chunk h2
            simp only [List.length_drop]
            simp only [List.length_cons] at hlen
            omega

theorem chunkBlob_join (chunkSize : Nat) :
    ∀ (n : Nat) (data : List Nat), data.length ≤ n →
      (chunkBlob chunkSize data).flatten = data := by
  intro n
  induction n with
  | zero =>
      intro data hlen
      have hnil : data = [] := List.eq_nil_of_length_eq_zero (Nat.le_zero.mp hlen)
      subst hnil
      simp [chunkBlob]
  | succ n ih =>
      intro data hlen
      cases data with
      | nil => simp [chunkBlob]
      | cons b rest =>
          rw [chunkBlob]
          simp only [List.flatten_cons]
          rw [ih (rest.drop (chunkSize - 1))
            (by simp only [List.length_drop]; simp only [List.length_cons] at hlen; omega)]
          simp [List.take_append_drop]

theorem handleRequest_setup (remote : String → String → Except GrpcError String)
    (remoteCaps : String → Except GrpcError ServerCapabilities)
    (st : ServerState) (r : Request) :
    (handleRequest remote remoteCaps st r).1.setup = st.setup := by
  cases r <;> rfl

theorem serveRequests_setup (remote : String → String → Except GrpcError String)
    (remoteCaps : String → Except GrpcError ServerCapabilities) :
    ∀ (requests : List Request) (st : ServerState),
      (serveRequests remote remoteCaps st requests).setup = st.setup := by
  intro requests
  induction requests with
  | nil => intro st; rfl
  | cons r rest ih =>
      intro st
      rw [serveRequests, ih, handleRequest_setup]

theorem startup_error_of_loop_error (casBA acBA : BlobAccess)
    (allowList schedulersList : List String) (msg : String)
    (hloop : runSchedulerLoop
      { schedulers := (allowPass allowList StringMap.empty StringMap.empty).1
        dialed := [] } schedulersList = Except.error msg) :
    startup (Except.ok (casBA, acBA)) allowList schedulersList = Except.error msg := by
  rw [startup.eq_def]
  simp only []
  rw [hloop]

/-! ### Claims -/

/-- C1: for every instance name that is not a key of the routing table built
by startup, the lookup closure handed to `DemultiplexingBuildQueue` returns
the invalid-argument error "Unknown instance name" and no queue, and an
`Execute` call for that instance fails with that error without reaching any
backend queue. -/
theorem demultiplex_unknown_instance
    (resolveBlobAccess : Except String (BlobAccess × BlobAccess))
    (allowList schedulersList : List String) (setup : ServerSetup)
    (remote : String → String → Except GrpcError String)
    (instanceName request : String)
    (hok : startup resolveBlobAccess allowList schedulersList = Except.ok setup)
    (hmiss : setup.schedulers instanceName = none) :
    demultiplexLookup setup.schedulers instanceName =
      Except.error ⟨StatusCode.invalidArgument, "Unknown instance name"⟩ ∧
    demultiplexExecute remote setup.schedulers instanceName request =
      { result := Except.error ⟨StatusCode.invalidArgument, "Unknown instance name"⟩
        reachedBackend := none } := by
  have hl : demultiplexLookup setup.schedulers instanceName =
      Except.error ⟨StatusCode.invalidArgument, "Unknown instance name"⟩ := by
    rw [demultiplexLookup, hmiss]
  exact ⟨hl, by rw [demultiplexExecute, hl]⟩

theorem demultiplex_unknown_instance_witness :
    ∃ setup,
      startup (Except.ok (⟨0⟩, ⟨1⟩)) ["allowed"] ["debian8|sched:8981"] = Except.ok setup ∧
      setup.schedulers "other" = none ∧
      demultiplexExecute (fun _ _ => Except.ok "done") setup.schedulers "other" "action" =
        { result := Except.error ⟨StatusCode.invalidArgument, "Unknown instance name"⟩
          reachedBackend := none } := by
  refine ⟨_, rfl, rfl, ?_⟩
  exact (demultiplex_unknown_instance (Except.ok (⟨0⟩, ⟨1⟩)) ["allowed"] ["debian8|sched:8981"]
    _ (fun _ _ => Except.ok "done") "other" "action" rfl rfl).2

/-- C2: the routing table is built in two passes: the first pass maps every
allow-listed instance to the shared `NonExecutableBuildQueue` fallback; the
scheduler pass then overwrites the mapping of every instance named by a
scheduler entry with a `ForwardingBuildQueue`, so an instance in both lists
ends at a forwarding queue and an allow-listed instance without a scheduler
entry ends at the fallback. -/
theorem routing_table_two_pass_overlay
    (resolveBlobAccess : Except String (BlobAccess × BlobAccess))
    (allowList schedulersList : List String) (setup : ServerSetup)
    (instanceName : String)
    (hok : startup resolveBlobAccess allowList schedulersList = Except.ok setup) :
    (instanceName ∈ allowList →
      (allowPass allowList StringMap.empty StringMap.empty).1 instanceName =
        some BuildQueue.nonExecutable) ∧
    ((∃ e ∈ schedulersList, ∃ ep, entryComponents e = some (instanceName, ep)) →
      ∃ ep, setup.schedulers instanceName = some (BuildQueue.forwarding ep)) ∧
    (instanceName ∈ allowList →
      (∀ e ∈ schedulersList, ∀ a b, entryComponents e = some (a, b) → a ≠ instanceName) →
      setup.schedulers instanceName = some BuildQueue.nonExecutable) := by
  obtain ⟨casBA, acBA, st, _, hloop, hsetup⟩ :=
    startup_ok_inv resolveBlobAccess allowList schedulersList setup hok
  have hlookup := runSchedulerLoop_ok_lookup schedulersList _ st hloop instanceName
  refine ⟨?_, ?_, ?_⟩
  · intro hmem
    rw [allowPass_fst, if_pos hmem]
  · rintro ⟨e, he, ep, hc⟩
    obtain ⟨ep2, hep2⟩ :=
      lastEndpointFor_isSome_of schedulersList instanceName e instanceName ep he hc rfl
    rw [hep2] at hlookup
    refine ⟨ep2, ?_⟩
    rw [hsetup]
    exact hlookup
  · intro hmem hnosched
    have hnone := lastEndpointFor_eq_none_of schedulersList instanceName hnosched
    rw [hnone] at hlookup
    rw [hsetup]
    show st.schedulers instanceName = some BuildQueue.nonExecutable
    rw [hlookup]
    show (allowPass allowList StringMap.empty StringMap.empty).1 instanceName =
      some BuildQueue.nonExecutable
    rw [allowPass_fst, if_pos hmem]

theorem routing_table_two_pass_overlay_witness :
    ∃ setup, startup (Except.ok (⟨0⟩, ⟨1⟩)) ["both", "aconly"] ["both|ep1"] = Except.ok setup ∧
      setup.schedulers "both" = some (BuildQueue.forwarding "ep1") ∧
      setup.schedulers "aconly" = some BuildQueue.nonExecutable ∧
      (allowPass ["both", "aconly"] StringMap.empty StringMap.empty).1 "aconly" =
        some BuildQueue.nonExecutable := by
  refine ⟨_, rfl, rfl, ?_, ?_⟩
  · refine (routing_table_two_pass_overlay (Except.ok (⟨0⟩, ⟨1⟩)) ["both", "aconly"]
      ["both|ep1"] _ "aconly" rfl).2.2 (by simp) ?_
    intro e he a b hc hcontra
    subst hcontra
    rw [List.mem_singleton] at he
    subst he
    rw [show entryComponents "both|ep1" = some ("both", "ep1") from rfl] at hc
    injection hc with hc
    injection hc with hc1 hc2
    exact absurd hc1.symm (by decide)
  · exact (routing_table_two_pass_overlay (Except.ok (⟨0⟩, ⟨1⟩)) ["both", "aconly"]
      ["both|ep1"] _ "aconly" rfl).1 (by simp)

/-- C3: the allow table built by startup maps an instance to `true` exactly
when the instance appears in the `-allow-ac-updates-for-instance` flag list;
`UpdateActionResult` succeeds for allow-listed instances, and for any other
instance it fails with `PERMISSION_DENIED` leaving the action-cache storage
untouched. -/
theorem action_cache_allow_list
    (resolveBlobAccess : Except String (BlobAccess × BlobAccess))
    (allowList schedulersList : List String) (setup : ServerSetup)
    (store : ACStore) (instanceName : String) (actionDigest : Digest) (result : String)
    (hok : startup resolveBlobAccess allowList schedulersList = Except.ok setup) :
    (setup.allowActionCacheUpdatesForInstances instanceName = some true ↔
      instanceName ∈ allowList) ∧
    (instanceName ∈ allowList →
      (updateActionResult setup.allowActionCacheUpdatesForInstances store
        instanceName actionDigest result).1 = Except.ok ()) ∧
    (instanceName ∉ allowList →
      updateActionResult setup.allowActionCacheUpdatesForInstances store
        instanceName actionDigest result =
        (Except.error ⟨StatusCode.permissionDenied,
          "This instance may not update the action cache"⟩, store)) := by
  obtain ⟨casBA, acBA, st, _, hloop, hsetup⟩ :=
    startup_ok_inv resolveBlobAccess allowList schedulersList setup hok
  have hallow : setup.allowActionCacheUpdatesForInstances instanceName =
      if instanceName ∈ allowList then some true else none := by
    rw [hsetup]
    show (allowPass allowList StringMap.empty StringMap.empty).2 instanceName =
      if instanceName ∈ allowList then some true else none
    rw [allowPass_snd]
    rfl
  refine ⟨?_, ?_, ?_⟩
  · rw [hallow]
    by_cases hmem : instanceName ∈ allowList
    · simp [hmem]
    · simp [hmem]
  · intro hmem
    rw [updateActionResult, hallow, if_pos hmem]
    rfl
  · intro hmem
    rw [updateActionResult, hallow, if_neg hmem]
    rfl

theorem action_cache_allow_list_witness :
    ∃ setup, startup (Except.ok (⟨0⟩, ⟨1⟩)) ["alice"] [] = Except.ok setup ∧
      setup.allowActionCacheUpdatesForInstances "alice" = some true ∧
      (updateActionResult setup.allowActionCacheUpdatesForInstances ACStore.empty
        "alice" ⟨"h", 3⟩ "res").1 = Except.ok () ∧
      updateActionResult setup.allowActionCacheUpdatesForInstances ACStore.empty
        "mallory" ⟨"h", 3⟩ "res" =
        (Except.error ⟨StatusCode.permissionDenied,
          "This instance may not update the action cache"⟩, ACStore.empty) := by
  refine ⟨_, rfl, rfl, ?_, ?_⟩
  · exact (action_cache_allow_list (Except.ok (⟨0⟩, ⟨1⟩)) ["alice"] [] _
      ACStore.empty "alice" ⟨"h", 3⟩ "res" rfl).2.1 (by simp)
  · exact (action_cache_allow_list (Except.ok (⟨0⟩, ⟨1⟩)) ["alice"] [] _
      ACStore.empty "mallory" ⟨"h", 3⟩ "res" rfl).2.2 (by simp)

/-- C4: a scheduler flag entry without a pipe separator is fatal at startup
with "Invalid scheduler entry" before the RPC server can serve; an entry with
a pipe splits into the instance name before the first pipe and the endpoint
after it, the endpoint keeping any further pipe characters. -/
theorem scheduler_entry_parse (st : SchedLoopState) (entry : String)
    (casBA acBA : BlobAccess) (allowList schedulersList : List String) :
    (('|' ∉ entry.data) →
      processSchedulerEntry st entry = Except.error ("Invalid scheduler entry: " ++ entry) ∧
      (entry ∈ schedulersList →
        ∃ bad, ('|' ∉ bad.data) ∧
          startup (Except.ok (casBA, acBA)) allowList schedulersList =
            Except.error ("Invalid scheduler entry: " ++ bad))) ∧
    (('|' ∈ entry.data) → ∃ a b, splitN2 entry = [a, b]) ∧
    (∀ a b, splitN2 entry = [a, b] →
      entry.data = a.data ++ '|' :: b.data ∧ ('|' ∉ a.data) ∧
      processSchedulerEntry st entry = Except.ok
        { schedulers := st.schedulers.insert a (BuildQueue.forwarding b)
          dialed := st.dialed ++ [b] }) := by
  refine ⟨?_, ?_, ?_⟩
  · intro hnopipe
    have hnone : entryComponents entry = none := (entryComponents_eq_none_iff entry).mpr hnopipe
    refine ⟨processSchedulerEntry_error st entry hnone, ?_⟩
    intro hmem
    obtain ⟨bad, _, hbadnone, hloop⟩ :=
      runSchedulerLoop_error_of_invalid schedulersList
        { schedulers := (allowPass allowList StringMap.empty StringMap.empty).1
          dialed := [] } entry hmem hnone
    exact ⟨bad, (entryComponents_eq_none_iff bad).mp hbadnone,
      startup_error_of_loop_error casBA acBA allowList schedulersList _ hloop⟩
  · intro hpipe
    rcases splitN2_length entry with h1 | ⟨a, b, h2⟩
    · exfalso
      have : entryComponents entry = none := by
        rw [entryComponents, h1]
      exact absurd hpipe ((entryComponents_eq_none_iff entry).mp this)
    · exact ⟨a, b, h2⟩
  · intro a b h2
    obtain ⟨hdata, hnot⟩ := splitN2_eq_pair entry a b h2
    exact ⟨hdata, hnot,
      processSchedulerEntry_ok st entry a b ((entryComponents_eq_some_iff entry a b).mpr h2)⟩

theorem scheduler_entry_parse_witness :
    ('|' ∉ "nopipe".data) ∧
    processSchedulerEntry { schedulers := StringMap.empty, dialed := [] } "nopipe" =
      Except.error ("Invalid scheduler entry: " ++ "nopipe") ∧
    (∃ bad, ('|' ∉ bad.data) ∧
      startup (Except.ok (⟨0⟩, ⟨1⟩)) [] ["nopipe"] =
        Except.error ("Invalid scheduler entry: " ++ bad)) ∧
    splitN2 "a|b|c" = ["a", "b|c"] ∧
    "a|b|c".data = "a".data ++ '|' :: "b|c".data := by
  have hnp : ('|' : Char) ∉ "nopipe".data := by decide
  have h := scheduler_entry_parse { schedulers := StringMap.empty, dialed := [] }
    "nopipe" ⟨0⟩ ⟨1⟩ [] ["nopipe"]
  have h2 := scheduler_entry_parse { schedulers := StringMap.empty, dialed := [] }
    "a|b|c" ⟨0⟩ ⟨1⟩ [] []
  exact ⟨hnp, (h.1 hnp).1, (h.1 hnp).2 (by simp), rfl, (h2.2.2 "a" "b|c" rfl).1⟩

/-- C5: startup resolves the blobstore configuration into exactly the two
BlobAccess handles, the CAS one and the action-cache one; a resolution error
is fatal and produces no server setup at all. -/
theorem blob_access_resolution
    (resolveBlobAccess : Except String (BlobAccess × BlobAccess))
    (allowList schedulersList : List String) (e : String)
    (casBA acBA : BlobAccess) (setup : ServerSetup) :
    (resolveBlobAccess = Except.error e →
      startup resolveBlobAccess allowList schedulersList =
        Except.error ("Failed to create blob access: " ++ e)) ∧
    (resolveBlobAccess = Except.ok (casBA, acBA) →
      startup resolveBlobAccess allowList schedulersList = Except.ok setup →
      setup.casServerBlobAccess = casBA ∧ setup.actionCacheServerBlobAccess = acBA) := by
  constructor
  · intro hres
    rw [startup.eq_def, hres]
  · intro hres hok
    obtain ⟨casBA2, acBA2, st, hres2, hloop, hsetup⟩ :=
      startup_ok_inv resolveBlobAccess allowList schedulersList setup hok
    rw [hres] at hres2
    injection hres2 with hres2
    injection hres2 with hcas hac
    rw [hsetup, ← hcas, ← hac]
    exact ⟨rfl, rfl⟩

theorem blob_access_resolution_witness :
    startup (Except.error "boom") [] [] =
      Except.error ("Failed to create blob access: " ++ "boom") ∧
    ∃ setup, startup (Except.ok (⟨0⟩, ⟨1⟩)) [] [] = Except.ok setup ∧
      setup.casServerBlobAccess = ⟨0⟩ ∧ setup.actionCacheServerBlobAccess = ⟨1⟩ := by
  constructor
  · exact (blob_access_resolution (Except.error "boom") [] [] "boom" ⟨0⟩ ⟨1⟩
      { schedulers := StringMap.empty
        allowActionCacheUpdatesForInstances := StringMap.empty
        dialed := []
        actionCacheServerBlobAccess := ⟨1⟩
        casServerBlobAccess := ⟨0⟩
        byteStreamServerBlobAccess := ⟨0⟩
        byteStreamMaxChunkSize := 0 }).1 rfl
  · refine ⟨_, rfl, ?_⟩
    exact (blob_access_resolution (Except.ok (⟨0⟩, ⟨1⟩)) [] [] "unused" ⟨0⟩ ⟨1⟩ _).2 rfl rfl

/-- C6: a single pair of BlobAccess handles serves all instance names: the
ContentAddressableStorage and ByteStream servers are both constructed over
the one CAS handle, the ActionCache server over the one action-cache handle,
and no protocol server selects a different handle based on the request's
instance name. -/
theorem single_blob_access_pair
    (resolveBlobAccess : Except String (BlobAccess × BlobAccess))
    (allowList schedulersList : List String)
    (casBA acBA : BlobAccess) (setup : ServerSetup)
    (hres : resolveBlobAccess = Except.ok (casBA, acBA))
    (hok : startup resolveBlobAccess allowList schedulersList = Except.ok setup) :
    setup.casServerBlobAccess = casBA ∧
    setup.byteStreamServerBlobAccess = casBA ∧
    setup.actionCacheServerBlobAccess = acBA ∧
    (∀ i j : String, casBlobAccessFor setup i = casBlobAccessFor setup j) ∧
    (∀ i j : String, byteStreamBlobAccessFor setup i = byteStreamBlobAccessFor setup j) ∧
    (∀ i j : String, actionCacheBlobAccessFor setup i = actionCacheBlobAccessFor setup j) := by
  obtain ⟨casBA2, acBA2, st, hres2, hloop, hsetup⟩ :=
    startup_ok_inv resolveBlobAccess allowList schedulersList setup hok
  rw [hres] at hres2
  injection hres2 with hres2
  injection hres2 with hcas hac
  rw [hsetup, ← hcas, ← hac]
  exact ⟨rfl, rfl, rfl, fun i j => rfl, fun i j => rfl, fun i j => rfl⟩

theorem single_blob_access_pair_witness :
    ∃ setup, startup (Except.ok (⟨0⟩, ⟨1⟩)) ["a"] ["b|ep"] = Except.ok setup ∧
      setup.casServerBlobAccess = ⟨0⟩ ∧
      setup.byteStreamServerBlobAccess = ⟨0⟩ ∧
      setup.actionCacheServerBlobAccess = ⟨1⟩ ∧
      byteStreamBlobAccessFor setup "x" = byteStreamBlobAccessFor setup "y" := by
  refine ⟨_, rfl, ?_⟩
  have h := single_blob_access_pair (Except.ok (⟨0⟩, ⟨1⟩)) ["a"] ["b|ep"] ⟨0⟩ ⟨1⟩ _ rfl rfl
  exact ⟨h.1, h.2.1, h.2.2.1, h.2.2.2.2.1 "x" "y"⟩

/-- C7: the ByteStream server is constructed with the fixed maximum chunk
size `1 << 16` = 65536 bytes, so every chunk of a chunked blob download
carries at most 65536 bytes while the chunks together carry the whole blob. -/
theorem byte_stream_chunking
    (resolveBlobAccess : Except String (BlobAccess × BlobAccess))
    (allowList schedulersList : List String) (setup : ServerSetup) (data : List Nat)
    (hok : startup resolveBlobAccess allowList schedulersList = Except.ok setup) :
    setup.byteStreamMaxChunkSize = 65536 ∧
    (∀ chunk ∈ chunkBlob setup.byteStreamMaxChunkSize data, chunk.length ≤ 65536) ∧
    (chunkBlob setup.byteStreamMaxChunkSize data).flatten = data := by
  obtain ⟨casBA, acBA, st, _, hloop, hsetup⟩ :=
    startup_ok_inv resolveBlobAccess allowList schedulersList setup hok
  have hsize : setup.byteStreamMaxChunkSize = 65536 := by
    rw [hsetup]
    rfl
  refine ⟨hsize, ?_, ?_⟩
  · rw [hsize]
    exact chunkBlob_chunk_length_le 65536 (by omega) data.length data (Nat.le_refl _)
  · exact chunkBlob_join setup.byteStreamMaxChunkSize data.length data (Nat.le_refl _)

theorem byte_stream_chunking_witness :
    ∃ setup, startup (Except.ok (⟨0⟩, ⟨1⟩)) [] [] = Except.ok setup ∧
      setup.byteStreamMaxChunkSize = 65536 ∧
      (chunkBlob setup.byteStreamMaxChunkSize [7, 8, 9]).flatten = [7, 8, 9] := by
  refine ⟨_, rfl, ?_⟩
  have h := byte_stream_chunking (Except.ok (⟨0⟩, ⟨1⟩)) [] [] _ [7, 8, 9] rfl
  exact ⟨h.1, h.2.2⟩

/-- C8: for every instance name mapped to the `NonExecutableBuildQueue`,
`GetCapabilities` succeeds advertising cache capability with execution
disabled, while `Execute` on that instance fails with `UNIMPLEMENTED`. -/
theorem non_executable_queue
    (schedulers : StringMap BuildQueue) (instanceName request : String)
    (remote : String → String → Except GrpcError String)
    (remoteCaps : String → Except GrpcError ServerCapabilities)
    (h : schedulers instanceName = some BuildQueue.nonExecutable) :
    demultiplexGetCapabilities remoteCaps schedulers instanceName =
      Except.ok { cacheCapabilities := true, executionEnabled := false } ∧
    (demultiplexExecute remote schedulers instanceName request).result =
      Except.error ⟨StatusCode.unimplemented, "Cannot execute build actions"⟩ := by
  have hl : demultiplexLookup schedulers instanceName = Except.ok BuildQueue.nonExecutable := by
    rw [demultiplexLookup, h]
  constructor
  · rw [demultiplexGetCapabilities, hl]
    rfl
  · rw [demultiplexExecute, hl]
    rfl

theorem non_executable_queue_witness :
    (StringMap.empty.insert "inst" BuildQueue.nonExecutable) "inst" =
      some BuildQueue.nonExecutable ∧
    demultiplexGetCapabilities (fun _ => Except.ok ⟨true, true⟩)
      (StringMap.empty.insert "inst" BuildQueue.nonExecutable) "inst" =
      Except.ok { cacheCapabilities := true, executionEnabled := false } ∧
    (demultiplexExecute (fun _ _ => Except.ok "done")
      (StringMap.empty.insert "inst" BuildQueue.nonExecutable) "inst" "action").result =
      Except.error ⟨StatusCode.unimplemented, "Cannot execute build actions"⟩ := by
  have h := non_executable_queue (StringMap.empty.insert "inst" BuildQueue.nonExecutable)
    "inst" "action" (fun _ _ => Except.ok "done") (fun _ => Except.ok ⟨true, true⟩) rfl
  exact ⟨rfl, h.1, h.2⟩

/-- C9: the routing table and the allow table are fixed at startup and only
read at serve time: after handling any sequence of requests the server's
setup, and hence the mapping observed for any instance name in either table,
is unchanged. -/
theorem tables_read_only_at_serve_time
    (remote : String → String → Except GrpcError String)
    (remoteCaps : String → Except GrpcError ServerCapabilities)
    (st : ServerState) (requests : List Request) :
    (serveRequests remote remoteCaps st requests).setup = st.setup ∧
    (∀ instanceName,
      (serveRequests remote remoteCaps st requests).setup.schedulers instanceName =
        st.setup.schedulers instanceName) ∧
    (∀ instanceName,
      (serveRequests remote remoteCaps st requests).setup.allowActionCacheUpdatesForInstances
        instanceName =
        st.setup.allowActionCacheUpdatesForInstances instanceName) := by
  have h := serveRequests_setup remote remoteCaps requests st
  exact ⟨h, fun instanceName => by rw [h], fun instanceName => by rw [h]⟩

/-- C10: when the same instance name appears in several scheduler entries the
routing table keeps the `ForwardingBuildQueue` of the last entry in flag
order, while a connection is still dialed for every entry, shadowed ones
included. -/
theorem duplicate_scheduler_entry_last_wins
    (resolveBlobAccess : Except String (BlobAccess × BlobAccess))
    (allowList schedulersList : List String) (setup : ServerSetup)
    (instanceName ep : String)
    (hok : startup resolveBlobAccess allowList schedulersList = Except.ok setup) :
    (lastEndpointFor schedulersList instanceName = some ep →
      setup.schedulers instanceName = some (BuildQueue.forwarding ep)) ∧
    setup.dialed = entryEndpoints schedulersList ∧
    setup.dialed.length = schedulersList.length := by
  obtain ⟨casBA, acBA, st, _, hloop, hsetup⟩ :=
    startup_ok_inv resolveBlobAccess allowList schedulersList setup hok
  have hlookup := runSchedulerLoop_ok_lookup schedulersList _ st hloop instanceName
  have hdialed := runSchedulerLoop_ok_dialed schedulersList _ st hloop
  have hlen := runSchedulerLoop_ok_dialed_length schedulersList _ st hloop
  refine ⟨?_, ?_, ?_⟩
  · intro hlast
    rw [hlast] at hlookup
    rw [hsetup]
    exact hlookup
  · rw [hsetup]
    show st.dialed = entryEndpoints schedulersList
    rw [hdialed]
    exact List.nil_append _
  · rw [hsetup]
    show st.dialed.length = schedulersList.length
    rw [hlen]
    simp

theorem duplicate_scheduler_entry_last_wins_witness :
    lastEndpointFor ["dup|ep1", "dup|ep2"] "dup" = some "ep2" ∧
    ∃ setup, startup (Except.ok (⟨0⟩, ⟨1⟩)) [] ["dup|ep1", "dup|ep2"] = Except.ok setup ∧
      setup.schedulers "dup" = some (BuildQueue.forwarding "ep2") ∧
      setup.dialed = ["ep1", "ep2"] ∧
      setup.dialed.length = 2 := by
  refine ⟨rfl, _, rfl, ?_, ?_, ?_⟩
  · exact (duplicate_scheduler_entry_last_wins (Except.ok (⟨0⟩, ⟨1⟩)) []
      ["dup|ep1", "dup|ep2"] _ "dup" "ep2" rfl).1 rfl
  · exact ((duplicate_scheduler_entry_last_wins (Except.ok (⟨0⟩, ⟨1⟩)) []
      ["dup|ep1", "dup|ep2"] _ "dup" "ep2" rfl).2.1).trans rfl
  · exact ((duplicate_scheduler_entry_last_wins (Except.ok (⟨0⟩, ⟨1⟩)) []
      ["dup|ep1", "dup|ep2"] _ "dup" "ep2" rfl).2.2).trans rfl

end BBStorage
